import Mathlib

/-!
Verification development for the LinkLanka real-time chat pipeline.

The TypeScript sources are shallowly embedded: JS strings are modelled as
`List Char` (`Str`), JS `Date.now()` timestamps as `Int` epoch milliseconds,
nullable fields as `Option`, thrown exceptions as `Except`, and the message
database table as a `List Message` threaded through the operations.  External
collaborators (the PostgreSQL engine's full-text WHERE-clause evaluation, the
Gemini inference provider, the file store, the JS `Date` parser) are passed in
as explicit parameters: the embedded code covers exactly the repository's own
control flow around them.
-/

namespace LinkLanka

/-- JS strings, modelled as lists of characters (`.length` = `List.length`). -/
abbrev Str := List Char

/-- The single-quote character (U+0027), used inside several source strings. -/
def squote : Char := Char.ofNat 39

/-- The double-quote character (U+0022). -/
def dquote : Char := Char.ofNat 34

/-- The backslash character (U+005C). -/
def backslashChar : Char := Char.ofNat 92

/-- Whitespace as removed by JS `String.prototype.trim` (common subset). -/
def isJsSpace (c : Char) : Bool :=
  c == ' ' || c == '\t' || c == '\n' || c == '\r'

/-- JS `s.trim()`: strip whitespace from both ends. -/
def jsTrim (s : Str) : Str :=
  ((s.dropWhile isJsSpace).reverse.dropWhile isJsSpace).reverse

/-- JS `Array.prototype.findIndex`, returning `none` for `-1`. -/
def jsFindIndex {α : Type} (p : α → Bool) : List α → Option Nat
  | [] => none
  | x :: xs => if p x then some 0 else (jsFindIndex p xs).map (· + 1)

/-! ### Data model (`message.entity.ts`, `translation.service.ts`,
`personal-context.entity.ts`) -/

/-- `MessageContentType` enum from `message.entity.ts`. -/
inductive MessageContentType where
  | TEXT
  | AUDIO
  | IMAGE
  | DOCUMENT
deriving DecidableEq, Repr

/-- The fixed set of parallel renderings (`Translations` interface). -/
structure Translations where
  singlish : Str
  tanglish : Str
  english : Str
deriving DecidableEq, Repr

/-- Action type of an AI-extracted action (`ExtractedActionSchema`). -/
inductive ActionType where
  | MEETING
  | REMINDER
deriving DecidableEq, Repr

/-- An AI-extracted meeting/reminder (`ExtractedActionSchema`). -/
structure ExtractedAction where
  typ : ActionType
  title : Str
  timestamp : Str
  description : Option Str
deriving DecidableEq, Repr

/-- A row of the `messages` table (`message.entity.ts`).  `createdAt` is an
epoch-millisecond timestamp; `id` is assigned by the database on insert. -/
structure Message where
  id : Str
  senderId : Str
  groupId : Str
  contentType : MessageContentType
  rawContent : Str
  transcription : Option Str
  translations : Option Translations
  confidenceScore : Option Int
  extractedActions : Option (List ExtractedAction)
  isEdited : Bool
  createdAt : Int
deriving DecidableEq, Repr

/-- The structured result the Language Mediator returns (`TranslationSchema`):
`transcription` and `translations` are non-nullable there, `extractedActions`
is optional. -/
structure TranslationResult where
  transcription : Str
  translations : Translations
  confidenceScore : Int
  extractedActions : Option (List ExtractedAction)
deriving DecidableEq, Repr

/-- A personal-dictionary row (`personal-context.entity.ts`), already in the
`createdAt ASC` order the repository query requests. -/
structure PersonalContext where
  slangWord : Str
  standardMeaning : Str
  createdAt : Int
deriving DecidableEq, Repr

/-! ### ActionService (`action.service.ts`) -/

/-- `ActionService.processActions`: keeps actions whose `title` and
`timestamp` are truthy and whose timestamp the JS `Date` runtime can parse
(the parser is passed in as `isValidTs`); the `type` field is always present
in the typed model.  The `toISOString` re-normalisation is the identity for
the already-ISO timestamps the schema enforces. -/
def processActions (isValidTs : Str → Bool) (actions : List ExtractedAction) :
    List ExtractedAction :=
  actions.filter fun a =>
    !a.title.isEmpty && !a.timestamp.isEmpty && isValidTs a.timestamp

/-! ### ChatService — the Message Store (`chat.service.ts`) -/

/-- The 15-minute edit window in milliseconds (`15 * 60 * 1000`). -/
def editWindowMs : Int := 15 * 60 * 1000

/-- `throw new Error('Message not found')` -/
def editNotFoundMsg : Str := "Message not found".toList

/-- `throw new Error('You can only edit your own messages')` -/
def editNotOwnerMsg : Str := "You can only edit your own messages".toList

/-- `throw new Error('Only text messages can be edited')` -/
def editOnlyTextMsg : Str := "Only text messages can be edited".toList

/-- `throw new Error('Messages can only be edited within 15 minutes of sending')` -/
def editWindowExpiredMsg : Str :=
  "Messages can only be edited within 15 minutes of sending".toList

/-- The per-id reason of `deleteMessages`: `Message ${id} not found`. -/
def deleteNotFoundMsg (id : Str) : Str :=
  "Message ".toList ++ id ++ " not found".toList

/-- `throw new Error('You can only delete your own messages')` -/
def deleteNotOwnerMsg : Str := "You can only delete your own messages".toList

/-- `ChatService.saveMessage`: builds the row with TypeORM `create` using
conditional spreads — each nullable column is set only when the argument is
non-null, and `extractedActions` only when additionally non-empty — then
inserts it.  `newId`/`now` stand for the id and `created_at` the database
assigns.  Returns the saved row and the new table state. -/
def saveMessage (store : List Message) (newId : Str) (now : Int)
    (userId groupId : Str) (contentType : MessageContentType)
    (rawContent : Str) (transcription : Option Str)
    (translations : Option Translations) (confidenceScore : Option Int)
    (extractedActions : Option (List ExtractedAction)) :
    Message × List Message :=
  let m : Message :=
    { id := newId
      senderId := userId
      groupId := groupId
      contentType := contentType
      rawContent := rawContent
      transcription := transcription
      translations := translations
      confidenceScore := confidenceScore
      extractedActions :=
        match extractedActions with
        | some l => if l.length > 0 then some l else none
        | none => none
      isEdited := false
      createdAt := now }
  (m, store ++ [m])

/-- `ChatService.findMessageById`. -/
def findMessageById (store : List Message) (id : Str) : Option Message :=
  store.find? fun m => m.id = id

/-- `ChatService.updateMessageTranslations`: `repository.update` sets both
columns on the matching row, then `findOneOrFail` re-reads it (throwing when
the row does not exist). -/
def updateMessageTranslations (store : List Message) (id : Str)
    (translations : Translations) (confidenceScore : Int) :
    Except Str (Message × List Message) :=
  let store2 := store.map fun m =>
    if m.id = id then
      { m with translations := some translations,
               confidenceScore := some confidenceScore }
    else m
  match findMessageById store2 id with
  | some m => .ok (m, store2)
  | none => .error editNotFoundMsg

/-- The validation loop of `ChatService.deleteMessages`: for each requested id
in order, fail if the id resolved no row, or if the row's sender is not the
caller.  `messages` is the set of rows the `In(messageIds)` query resolved. -/
def deleteCheck (messages : List Message) (userId : Str) :
    List Str → Option Str
  | [] => none
  | id :: rest =>
    match messages.find? (fun m => m.id = id) with
    | none => some (deleteNotFoundMsg id)
    | some m =>
      if m.senderId = userId then deleteCheck messages userId rest
      else some deleteNotOwnerMsg

/-- `ChatService.deleteMessages`: empty list is a no-op; otherwise resolve all
rows first, run the ownership checks, and only then remove the resolved rows.
A thrown error (`.error`) leaves the table untouched. -/
def deleteMessages (store : List Message) (messageIds : List Str)
    (userId : Str) : Except Str (List Message) :=
  if messageIds.length = 0 then .ok store
  else
    let messages := store.filter fun m => decide (m.id ∈ messageIds)
    match deleteCheck messages userId messageIds with
    | some e => .error e
    | none => .ok (store.filter fun m => !decide (m.id ∈ messageIds))

/-- The table state after `deleteMessages`: on a thrown error the database is
as before (zero deletions). -/
def deleteMessagesStore (store : List Message) (messageIds : List Str)
    (userId : Str) : List Message :=
  match deleteMessages store messageIds userId with
  | .ok s => s
  | .error _ => store

/-- `ChatService.editMessage`: resolve the row, enforce ownership, TEXT
content type, and the 15-minute window, then overwrite `rawContent`, set
`isEdited`, clear `translations`/`confidenceScore`, and save. -/
def editMessage (store : List Message) (messageId userId : Str)
    (newContent : Str) (now : Int) : Except Str (Message × List Message) :=
  match findMessageById store messageId with
  | none => .error editNotFoundMsg
  | some msg =>
    if msg.senderId = userId then
      if msg.contentType = MessageContentType.TEXT then
        if msg.createdAt < now - editWindowMs then .error editWindowExpiredMsg
        else
          let m2 := { msg with
            rawContent := newContent
            isEdited := true
            translations := none
            confidenceScore := none }
          .ok (m2, store.map fun m => if m.id = messageId then m2 else m)
      else .error editOnlyTextMsg
    else .error editNotOwnerMsg

/-- The table state after `editMessage`: on a thrown error the database is as
before (no partial mutation). -/
def editMessageStore (store : List Message) (messageId userId : Str)
    (newContent : Str) (now : Int) : List Message :=
  match editMessage store messageId userId newContent now with
  | .ok (_, s) => s
  | .error _ => store

/-! ### ChatService.searchMessages (`chat.service.ts`) -/

/-- The tsquery special characters stripped by the sanitiser:
`query.replace(/[&|!<>():*'"\\]/g, ' ')`. -/
def isTsSpecial (c : Char) : Bool :=
  c == '&' || c == '|' || c == '!' || c == '<' || c == '>' ||
  c == '(' || c == ')' || c == ':' || c == '*' ||
  c == squote || c == dquote || c == backslashChar

/-- Sanitise the user query: strip tsquery special characters, trim. -/
def sanitiseQuery (q : Str) : Str :=
  jsTrim (q.map fun c => if isTsSpecial c then ' ' else c)

/-- Insert a message into a `created_at`-descending list (helper for the SQL
`ORDER BY m.created_at DESC`). -/
def insertByCreatedDesc (m : Message) : List Message → List Message
  | [] => [m]
  | x :: xs =>
    if x.createdAt < m.createdAt then m :: x :: xs
    else x :: insertByCreatedDesc m xs

/-- `ORDER BY m.created_at DESC` as an insertion sort. -/
def sortNewestFirst : List Message → List Message
  | [] => []
  | x :: xs => insertByCreatedDesc x (sortNewestFirst xs)

/-- The rows the search WHERE clause selects.  `rowMatches` is the PostgreSQL
engine's evaluation of the full-text/ILIKE disjunction for the sanitised
query; the group scope and the empty-query early return are the service's
own code. -/
def matchingMessages (store : List Message) (groupId query : Str)
    (rowMatches : Message → Bool) : List Message :=
  if (sanitiseQuery query).isEmpty then []
  else store.filter fun m => m.groupId = groupId && rowMatches m

/-- `ChatService.searchMessages`: `skip = (page-1)*limit`; empty sanitised
query short-circuits to `{results: [], total: 0}`; otherwise `total` is the
unpaginated `getCount()` and the rows are the newest-first matches with
`OFFSET skip LIMIT limit`. -/
def searchMessages (store : List Message) (groupId query : Str)
    (rowMatches : Message → Bool) (page limit : Nat) :
    List Message × Nat :=
  let skip := (page - 1) * limit
  let sanitised := sanitiseQuery query
  if sanitised.isEmpty then ([], 0)
  else
    let matching := store.filter fun m => m.groupId = groupId && rowMatches m
    let total := matching.length
    let rows := ((sortNewestFirst matching).drop skip).take limit
    (rows, total)

/-! ### PersonalContextService (`personal-context.service.ts`) -/

/-- `MAX_DICTIONARY_CHARS = 1500`. -/
def maxDictionaryChars : Nat := 1500

/-- The compiled-string header `User's custom dictionary: `. -/
def dictHeader : Str :=
  "User".toList ++ [squote] ++ "s custom dictionary: ".toList

/-- One compiled entry: `'${slangWord}' means '${standardMeaning}'. `. -/
def entryFragment (e : PersonalContext) : Str :=
  [squote] ++ e.slangWord ++ [squote] ++ " means ".toList ++
    [squote] ++ e.standardMeaning ++ [squote] ++ ". ".toList

/-- The compilation loop of `getUserDictionary`: add fragments oldest-first,
`break` on the first entry whose addition would exceed the budget. -/
def dictLoop (compiled : Str) : List PersonalContext → Str
  | [] => compiled
  | e :: es =>
    let fragment := entryFragment e
    if compiled.length + fragment.length > maxDictionaryChars then compiled
    else dictLoop (compiled ++ fragment) es

/-- How many leading entries the loop starting from a string of length `len`
admits before breaking. -/
def includedCount (len : Nat) : List PersonalContext → Nat
  | [] => 0
  | e :: es =>
    if len + (entryFragment e).length > maxDictionaryChars then 0
    else 1 + includedCount (len + (entryFragment e).length) es

/-- `PersonalContextService.getUserDictionary` (cache aside): empty entry list
compiles to the empty string, otherwise the capped oldest-first compilation,
trimmed.  `entries` is the repository result, ordered `createdAt ASC`. -/
def getUserDictionary (entries : List PersonalContext) : Str :=
  if entries.isEmpty then []
  else jsTrim (dictLoop dictHeader entries)

/-! ### Transport Gateway (`part_017`, the current `ChatGateway`) -/

/-- Membership table: `(groupId, userId)` pairs; `GroupsService.isMember`. -/
def isMember (members : List (Str × Str)) (groupId userId : Str) : Bool :=
  decide ((groupId, userId) ∈ members)

/-- The events the gateway (and the audio controller through
`broadcastToGroup`) emits: room-wide broadcasts and targeted client errors. -/
inductive GwEvent where
  | newMessageBroadcast (groupId messageId senderId : Str)
      (contentType : MessageContentType) (fileUrl : Option Str)
      (transcription : Option Str) (originalText : Option Str)
      (translations : Option Translations) (confidenceScore : Int)
      (extractedActions : Option (List ExtractedAction))
  | messageEditedBroadcast (groupId messageId newContent : Str)
      (translations : Option Translations) (confidenceScore : Option Int)
  | messagesDeletedBroadcast (groupId : Str) (messageIds : List Str)
      (deletedBy : Str)
  | messageFailedToClient (reason : Str)
  | editFailedToClient (messageId : Option Str) (reason : Str)
  | deleteFailedToClient (reason : Str)
deriving DecidableEq, Repr

/-- Is the event a room-wide `newMessage` broadcast? -/
def GwEvent.isNewMessage : GwEvent → Bool
  | .newMessageBroadcast _ _ _ _ _ _ _ _ _ _ => true
  | _ => false

/-- Is the event a room-wide `messageEdited` broadcast? -/
def GwEvent.isMessageEdited : GwEvent → Bool
  | .messageEditedBroadcast _ _ _ _ _ => true
  | _ => false

/-- `sendMessage` payload after `normalizeSendMessagePayload`
(`camelCase`/`snake_case` merging already applied by `??`). -/
structure SendMessagePayload where
  groupId : Str
  contentType : MessageContentType
  rawContent : Option Str
  audioBase64 : Option Str
  audioMimeType : Option Str
  fileUrl : Option Str
  fileMimeType : Option Str
deriving DecidableEq, Repr

/-- The raw `sendMessage` payload as received: each logical field is either
absent or a string (`payload.x ?? payload.x_snake` already merged); the
content type arrives as a raw string to be checked against the enum. -/
structure RawSendPayload where
  groupId : Option Str
  contentType : Option Str
  rawContent : Option Str
  audioBase64 : Option Str
  audioMimeType : Option Str
  fileUrl : Option Str
  fileMimeType : Option Str
deriving DecidableEq, Repr

/-- A payload field that is absent, or blank after trimming — the shape the
per-content-type requirement checks reject. -/
def missingOrBlank : Option Str → Bool
  | none => true
  | some s => (jsTrim s).isEmpty

/-- `Object.values(MessageContentType).includes(value)` as a parser. -/
def parseContentType (s : Str) : Option MessageContentType :=
  if s = "TEXT".toList then some MessageContentType.TEXT
  else if s = "AUDIO".toList then some MessageContentType.AUDIO
  else if s = "IMAGE".toList then some MessageContentType.IMAGE
  else if s = "DOCUMENT".toList then some MessageContentType.DOCUMENT
  else none

/-- `ChatGateway.normalizeSendMessagePayload`: groupId must be a non-empty
string, the content type must be a member of the enum, and the per-type
required field (audio → `audioBase64`, image/document → `fileUrl`,
text → `rawContent`) must be a non-empty string. -/
def normalizeSendMessagePayload (raw : RawSendPayload) :
    Except Str SendMessagePayload :=
  match raw.groupId with
  | none => .error "Invalid payload: groupId required".toList
  | some g =>
    if (jsTrim g).isEmpty then .error "Invalid payload: groupId required".toList
    else
      match raw.contentType with
      | none => .error "Invalid payload: contentType invalid".toList
      | some ctRaw =>
        match parseContentType ctRaw with
        | none => .error "Invalid payload: contentType invalid".toList
        | some ct =>
          let isAudio : Bool := decide (ct = MessageContentType.AUDIO)
          let isMedia : Bool := decide (ct = MessageContentType.IMAGE) ||
            decide (ct = MessageContentType.DOCUMENT)
          if isAudio && missingOrBlank raw.audioBase64 then
            .error "Invalid payload: audioBase64 required for AUDIO".toList
          else if isMedia && missingOrBlank raw.fileUrl then
            .error "Invalid payload: fileUrl required for IMAGE/DOCUMENT".toList
          else if !isAudio && !isMedia && missingOrBlank raw.rawContent then
            .error "Invalid payload: rawContent required for TEXT".toList
          else
            .ok { groupId := g
                  contentType := ct
                  rawContent := raw.rawContent
                  audioBase64 := raw.audioBase64
                  audioMimeType := raw.audioMimeType
                  fileUrl := raw.fileUrl
                  fileMimeType := raw.fileMimeType }

/-- The observable outcome of one `sendMessage` handler invocation. -/
structure SendOutcome where
  result : Except Str Message
  store : List Message
  events : List GwEvent
  mediationCalled : Bool
deriving Repr

/-- The `messageFailed` reason sent to stale clients that submit AUDIO over
the socket. -/
def audioUpgradeMsg : Str :=
  "Please update your app. Audio messages now use a dedicated endpoint.".toList

/-- `ChatGateway.sendMessage` (`part_017`): authenticates via the attached
socket user, normalises the payload, rejects AUDIO towards the dedicated REST
route, and otherwise runs the Language Mediator (`mediation` is the provider's
structured result, `isValidTs` the JS date parser), persists via
`ChatService.saveMessage`, and broadcasts `newMessage` to the room.  The
handler performs no group-membership check. -/
def sendMessage (store : List Message) (userId : Option Str)
    (raw : RawSendPayload) (isValidTs : Str → Bool)
    (mediation : TranslationResult) (newId : Str) (now : Int) : SendOutcome :=
  match userId with
  | none => ⟨.error "Unauthorized".toList, store, [], false⟩
  | some uid =>
    match normalizeSendMessagePayload raw with
    | .error e => ⟨.error e, store, [], false⟩
    | .ok p =>
      if p.contentType = MessageContentType.AUDIO then
        ⟨.error "AUDIO not accepted on WebSocket".toList, store,
          [GwEvent.messageFailedToClient audioUpgradeMsg], false⟩
      else
        let isMedia := p.contentType = MessageContentType.IMAGE ∨
          p.contentType = MessageContentType.DOCUMENT
        let transcription : Option Str := some mediation.transcription
        let translations : Option Translations := some mediation.translations
        let confidenceScore : Int := mediation.confidenceScore
        let extractedActions := mediation.extractedActions
        let processedActions : Option (List ExtractedAction) :=
          match extractedActions with
          | some l =>
            if l.length > 0 then some (processActions isValidTs l) else none
          | none => none
        let rawContentToSave : Str :=
          if isMedia then p.fileUrl.getD [] else p.rawContent.getD []
        let saved := saveMessage store newId now uid p.groupId p.contentType
          rawContentToSave transcription translations (some confidenceScore)
          processedActions
        let message := saved.1
        let originalText : Option Str :=
          if p.contentType = MessageContentType.TEXT then p.rawContent
          else some mediation.transcription
        ⟨.ok message, saved.2,
          [GwEvent.newMessageBroadcast p.groupId message.id uid p.contentType
            p.fileUrl transcription originalText translations confidenceScore
            processedActions],
          true⟩

/-- The observable outcome of one `editMessage` / `deleteMessages` handler
invocation (the handlers return `void`; `threw` records a `WsException`). -/
structure HandlerOutcome where
  store : List Message
  events : List GwEvent
  threw : Option Str
deriving Repr

/-- `ChatGateway.handleEditMessage` (`part_017`): validate the payload shape,
trim and length-cap the content, reject a no-op edit, require membership,
then (1) persist via `ChatService.editMessage`, (2) re-run the Language
Mediator (`mediation` is its outcome — `.error` when the provider call
throws), (3) persist the new translations, (4) broadcast `messageEdited`.
Any failure inside the try-block emits a targeted `editFailed` and nothing
else. -/
def handleEditMessage (store : List Message) (members : List (Str × Str))
    (userId : Option Str) (groupId messageId newContent : Option Str)
    (now : Int) (mediation : Except Str TranslationResult) : HandlerOutcome :=
  match userId with
  | none => ⟨store, [], some "Unauthorized".toList⟩
  | some uid =>
    match groupId, messageId, newContent with
    | some g, some mid, some nc =>
      if (jsTrim g).isEmpty || (jsTrim mid).isEmpty then
        ⟨store, [GwEvent.editFailedToClient messageId
          "Invalid payload: groupId, messageId, and newContent are required".toList],
          none⟩
      else
        let trimmed := jsTrim nc
        if trimmed.isEmpty then
          ⟨store, [GwEvent.editFailedToClient (some mid)
            "Message cannot be empty".toList], none⟩
        else if trimmed.length > 2000 then
          ⟨store, [GwEvent.editFailedToClient (some mid)
            "Message is too long (max 2000 characters)".toList], none⟩
        else
          let existing := findMessageById store mid
          if (match existing with
              | some m => decide (m.rawContent = trimmed)
              | none => false) then
            ⟨store, [GwEvent.editFailedToClient (some mid)
              "No changes detected".toList], none⟩
          else if !(isMember members g uid) then
            ⟨store, [GwEvent.editFailedToClient (some mid)
              "Forbidden: you are not a member of this group".toList], none⟩
          else
            match editMessage store mid uid trimmed now with
            | .error e => ⟨store, [GwEvent.editFailedToClient (some mid) e], none⟩
            | .ok (_, store1) =>
              match mediation with
              | .error e =>
                ⟨store1, [GwEvent.editFailedToClient (some mid) e], none⟩
              | .ok res =>
                match updateMessageTranslations store1 mid res.translations
                    res.confidenceScore with
                | .error e =>
                  ⟨store1, [GwEvent.editFailedToClient (some mid) e], none⟩
                | .ok (finalMessage, store2) =>
                  ⟨store2,
                    [GwEvent.messageEditedBroadcast g mid trimmed
                      finalMessage.translations finalMessage.confidenceScore],
                    none⟩
    | _, _, _ =>
      ⟨store, [GwEvent.editFailedToClient messageId
        "Invalid payload: groupId, messageId, and newContent are required".toList],
        none⟩

/-! ### AudioController (`audio.controller.ts`) -/

/-- The outcome of `POST /audio/process`. -/
inductive AudioOutcome where
  | badRequest (reason : Str)
  | audioNotAudible
  | success (message : Message)
deriving DecidableEq, Repr

/-- Outcome plus the resulting table state and emitted socket events. -/
structure AudioResult where
  outcome : AudioOutcome
  store : List Message
  events : List GwEvent
deriving Repr

/-- `AudioController.processAudio`: validate payload, check membership, write
the decoded audio to storage (the stored `fileUrl` is a parameter), run
mediation (`mediation` is the provider's structured result), apply the
server-side audibility gate — `confidenceScore <= 5 || !transcription ||
transcription.trim().length === 0` rejects with the distinct
`audioNotAudible` outcome before anything is persisted — then persist the
AUDIO message and broadcast `newMessage` via `ChatGateway.broadcastToGroup`. -/
def processAudio (store : List Message) (members : List (Str × Str))
    (userId : Str) (groupIdRaw audioBase64Raw audioMimeTypeRaw : Option Str)
    (fileUrl newId : Str) (now : Int) (isValidTs : Str → Bool)
    (mediation : TranslationResult) : AudioResult :=
  match groupIdRaw with
  | none => ⟨.badRequest "groupId is required".toList, store, []⟩
  | some gRaw =>
    if (jsTrim gRaw).isEmpty then
      ⟨.badRequest "groupId is required".toList, store, []⟩
    else
      match audioBase64Raw with
      | none =>
        ⟨.badRequest "audioBase64 is required and must be a non-empty string".toList,
          store, []⟩
      | some aRaw =>
        if (jsTrim aRaw).length < 10 then
          ⟨.badRequest "audioBase64 is required and must be a non-empty string".toList,
            store, []⟩
        else
          let groupId := jsTrim gRaw
          let rawMime :=
            match audioMimeTypeRaw with
            | some m => if (jsTrim m).isEmpty then "audio/mp4".toList
                        else jsTrim m
            | none => "audio/mp4".toList
          let _geminiMime :=
            if rawMime = "audio/m4a".toList then "audio/mp4".toList
            else rawMime
          if !(isMember members groupId userId) then
            ⟨.badRequest "You are not a member of this group".toList, store, []⟩
          else
            let transcription := mediation.transcription
            let confidenceScore := mediation.confidenceScore
            let appearsInaudible :=
              confidenceScore ≤ 5 ∨ (jsTrim transcription).isEmpty = true
            if appearsInaudible then ⟨.audioNotAudible, store, []⟩
            else
              let processedActions : Option (List ExtractedAction) :=
                match mediation.extractedActions with
                | some l =>
                  if l.length > 0 then some (processActions isValidTs l)
                  else none
                | none => none
              let saved := saveMessage store newId now userId groupId
                MessageContentType.AUDIO fileUrl (some transcription)
                (some mediation.translations) (some confidenceScore)
                processedActions
              let message := saved.1
              ⟨.success message, saved.2,
                [GwEvent.newMessageBroadcast groupId message.id userId
                  MessageContentType.AUDIO (some fileUrl) (some transcription)
                  (some transcription) (some mediation.translations)
                  confidenceScore processedActions]⟩

/-! ### Client Reconciliation Engine (`ProfileScreen.tsx`) -/

/-- The client-local message shape (`MessageBubble`'s `ChatMessage`): the
local list is kept newest-first (the FlatList is inverted) and optimistic
placeholders carry `isOptimistic = true`. -/
structure ChatMessage where
  id : Str
  senderId : Str
  contentType : MessageContentType
  rawContent : Str
  translations : Option Translations
  confidenceScore : Option Int
  extractedActions : Option (List ExtractedAction)
  isOptimistic : Bool
  isEdited : Bool
  createdAt : Str
deriving DecidableEq, Repr

/-- The `newMessage` broadcast shape as the client receives it. -/
structure NewMessageEvent where
  messageId : Str
  senderId : Str
  contentType : MessageContentType
  fileUrl : Option Str
  transcription : Option Str
  originalText : Option Str
  translations : Option Translations
  confidenceScore : Option Int
  extractedActions : Option (List ExtractedAction)
deriving DecidableEq, Repr

/-- `serverEventToChatMessage`: maps the broadcast to a local message;
`rawContent = fileUrl ?? originalText ?? ''`, non-optimistic, timestamped
with the client's current time (`nowIso`). -/
def serverEventToChatMessage (evt : NewMessageEvent) (nowIso : Str) :
    ChatMessage :=
  { id := evt.messageId
    senderId := evt.senderId
    contentType := evt.contentType
    rawContent := (evt.fileUrl.orElse fun _ => evt.originalText).getD []
    translations := evt.translations
    confidenceScore := evt.confidenceScore
    extractedActions := evt.extractedActions
    isOptimistic := false
    isEdited := false
    createdAt := nowIso }

/-- The predicate of the reconciliation `findIndex`:
`m.isOptimistic && m.senderId === userId`. -/
def isPendingFrom (userId : Str) (m : ChatMessage) : Bool :=
  m.isOptimistic && decide (m.senderId = userId)

/-- `handleNewMessage`: when the broadcast's sender is the local user, replace
the first matching pending placeholder in the (newest-first) local list with
the authoritative message; otherwise — and when no placeholder matches —
prepend it as a new message. -/
def handleNewMessage (evt : NewMessageEvent) (userId nowIso : Str)
    (prev : List ChatMessage) : List ChatMessage :=
  let finalMessage := serverEventToChatMessage evt nowIso
  if evt.senderId = userId then
    match jsFindIndex (isPendingFrom userId) prev with
    | some idx => prev.set idx finalMessage
    | none => finalMessage :: prev
  else finalMessage :: prev

/-! ### Audibility pre-check (`ChatInput.tsx`, `handleStopRecording`) -/

/-- `SILENCE_THRESHOLD_DB = -45` (dBFS). -/
def silenceThresholdDb : Int := -45

/-- How one completed press-and-hold recording gesture resolves.  Only the
`sent` outcome performs a network call (`onSendMessage`, which uploads). -/
inductive StopOutcome where
  | notRecording
  | cancelledDiscard
  | tooShortDiscard
  | silentRejected
  | noUriError
  | emptyFileError
  | sent
deriving DecidableEq, Repr

/-- Does the outcome reach the network (`onSendMessage`)? -/
def StopOutcome.sendsOverNetwork : StopOutcome → Bool
  | .sent => true
  | _ => false

/-- `handleStopRecording`: guard on the recording flag, discard on cancel,
silently drop taps under 500 ms, then the client-side silence guard — with at
least one metering sample collected, reject with a re-record prompt when
`Math.max(...meteringHistory) < SILENCE_THRESHOLD_DB` — then require a
recorder URI and a non-trivial base64 payload (`fileBase64` is the encoded
file contents) before handing off to `onSendMessage`. -/
def handleStopRecording (isRecordingActive wasCancelled : Bool)
    (durationMs : Nat) (meteringHistory : List Int) (uri : Option Str)
    (fileBase64 : Str) : StopOutcome :=
  if !isRecordingActive then .notRecording
  else if wasCancelled then .cancelledDiscard
  else if durationMs < 500 then .tooShortDiscard
  else
    let silent :=
      match meteringHistory with
      | [] => false
      | x :: xs => decide (xs.foldl max x < silenceThresholdDb)
    if silent then .silentRejected
    else
      match uri with
      | none => .noUriError
      | some _ =>
        if fileBase64.length < 10 then .emptyFileError
        else .sent

/-! ### The persisted-message operations reachable in the system (for the
translations/confidence invariant) -/

/-- One invocation of an operation that can create or mutate a `messages`
row, with the arguments the Transport Gateway / audio controller / chat
controller actually pass (mediation results come from the provider's
non-nullable schema). -/
inductive SystemOp where
  | gatewaySend (userId : Option Str) (raw : RawSendPayload)
      (isValidTs : Str → Bool) (mediation : TranslationResult)
      (newId : Str) (now : Int)
  | audioIngest (members : List (Str × Str)) (userId : Str)
      (groupIdRaw audioBase64Raw audioMimeTypeRaw : Option Str)
      (fileUrl newId : Str) (now : Int) (isValidTs : Str → Bool)
      (mediation : TranslationResult)
  | editText (messageId userId newContent : Str) (now : Int)
  | retranslate (messageId : Str) (mediation : TranslationResult)

/-- The table state after one operation (failed operations leave it as is). -/
def stepOp (store : List Message) : SystemOp → List Message
  | .gatewaySend userId raw isValidTs mediation newId now =>
    (sendMessage store userId raw isValidTs mediation newId now).store
  | .audioIngest members userId g a m fileUrl newId now isValidTs mediation =>
    (processAudio store members userId g a m fileUrl newId now
      isValidTs mediation).store
  | .editText messageId userId newContent now =>
    editMessageStore store messageId userId newContent now
  | .retranslate messageId mediation =>
    match updateMessageTranslations store messageId mediation.translations
        mediation.confidenceScore with
    | .ok (_, s) => s
    | .error _ => store

/-- The table state after a whole history of operations, from the empty
table. -/
def runOps (ops : List SystemOp) : List Message :=
  ops.foldl stepOp []

/-- The §3 invariant: `translations` and `confidenceScore` are both null or
both set. -/
def bothNullOrBothSet (m : Message) : Prop :=
  (m.translations = none ∧ m.confidenceScore = none) ∨
  (m.translations ≠ none ∧ m.confidenceScore ≠ none)

/-! ### Concrete inputs used by the claim evaluations and witnesses,
and derived predicates -/

/-- Concrete message used by the C4 witness: a TEXT message by user `a`
created at time 0. -/
def c4Msg : Message :=
  { id := ['m']
    senderId := ['a']
    groupId := ['g']
    contentType := MessageContentType.TEXT
    rawContent := "hello".toList
    transcription := none
    translations := none
    confidenceScore := none
    extractedActions := none
    isEdited := false
    createdAt := 0 }

/-- Messages for the C3 witness: `msgA` owned by user `a`, `msgB` by `b`. -/
def c3MsgA : Message :=
  { c4Msg with id := "ma".toList, senderId := ['a'] }

/-- Second C3 witness message, owned by a different user. -/
def c3MsgB : Message :=
  { c4Msg with id := "mb".toList, senderId := ['b'] }

/-- Entry whose fragment alone blows the 1500-character budget. -/
def c8BigEntry : PersonalContext :=
  { slangWord := ['w'], standardMeaning := List.replicate 1600 'x',
    createdAt := 0 }

/-- Small entry used by the C8 witness. -/
def c8SmallEntry : PersonalContext :=
  { slangWord := ['s'], standardMeaning := ['m'], createdAt := 1 }

/-- Mediation result for the C2 witness: `confidenceScore = 3` with a
non-empty transcription. -/
def c2LowConf : TranslationResult :=
  { transcription := "hello machan".toList
    translations := { singlish := "hello".toList, tanglish := "hello".toList,
                      english := "hello".toList }
    confidenceScore := 3
    extractedActions := none }

/-- Mediation result for the C2 witness success branch. -/
def c2HighConf : TranslationResult := { c2LowConf with confidenceScore := 90 }

/-- The raw TEXT payload the C1 evaluation submits to the gateway. -/
def c1Raw : RawSendPayload :=
  { groupId := some ['g']
    contentType := some "TEXT".toList
    rawContent := some "hi".toList
    audioBase64 := none
    audioMimeType := none
    fileUrl := none
    fileMimeType := none }

/-- Mediation result used by the C1 evaluation. -/
def c1Mediation : TranslationResult :=
  { transcription := "hi".toList
    translations := { singlish := "hi".toList, tanglish := "hi".toList,
                      english := "hi".toList }
    confidenceScore := 95
    extractedActions := none }

/-- One of the 25 matching messages of the C9 witness, with creation time
`i`. -/
def c9Msg (i : Nat) : Message := { c4Msg with createdAt := (i : Int) }

/-- 25 messages in room `g`, all matching the C9 witness query. -/
def c9Store : List Message := (List.range 25).map c9Msg

/-- A pending optimistic placeholder from user `u` with local id `n`. -/
def c5Pending (n : Str) : ChatMessage :=
  { id := n
    senderId := ['u']
    contentType := MessageContentType.TEXT
    rawContent := "draft".toList
    translations := none
    confidenceScore := none
    extractedActions := none
    isOptimistic := true
    isEdited := false
    createdAt := [] }

/-- The authoritative broadcast of the C5 counterexample, sent by the local
user `u`. -/
def c5Evt : NewMessageEvent :=
  { messageId := ['s']
    senderId := ['u']
    contentType := MessageContentType.TEXT
    fileUrl := none
    transcription := some "hi".toList
    originalText := some "hi".toList
    translations := some { singlish := "hi".toList, tanglish := "hi".toList,
                           english := "hi".toList }
    confidenceScore := some 90
    extractedActions := none }

/-- Every row of the table satisfies the invariant. -/
def invStore (store : List Message) : Prop :=
  ∀ m ∈ store, bothNullOrBothSet m

/-- The message persisted by the C7 witness history. -/
def c7Msg : Message :=
  { id := ['m']
    senderId := ['u']
    groupId := ['g']
    contentType := MessageContentType.TEXT
    rawContent := "hi".toList
    transcription := some "hi".toList
    translations := some { singlish := "hi".toList, tanglish := "hi".toList,
                           english := "hi".toList }
    confidenceScore := some 95
    extractedActions := none
    isEdited := false
    createdAt := 0 }

/-- The row `ChatService.editMessage` writes on success. -/
def editedRow (msg : Message) (newContent : Str) : Message :=
  { msg with rawContent := newContent, isEdited := true,
             translations := none, confidenceScore := none }

/-- The stored TEXT message of the C10 witness, sent by `u` at time 0. -/
def c10Msg : Message :=
  { c4Msg with senderId := ['u'], rawContent := "old".toList }

/-! ## Helper lemmas -/

lemma length_dropWhile_le {α : Type} (p : α → Bool) (l : List α) :
    (l.dropWhile p).length ≤ l.length := by
  induction l with
  | nil => simp [List.dropWhile]
  | cons x xs ih =>
    simp only [List.dropWhile]
    split
    · simpa using Nat.le_succ_of_le ih
    · simp

lemma jsTrim_length_le (s : Str) : (jsTrim s).length ≤ s.length := by
  unfold jsTrim
  calc ((s.dropWhile isJsSpace).reverse.dropWhile isJsSpace).reverse.length
      = ((s.dropWhile isJsSpace).reverse.dropWhile isJsSpace).length := by
        rw [List.length_reverse]
    _ ≤ (s.dropWhile isJsSpace).reverse.length :=
        length_dropWhile_le isJsSpace _
    _ = (s.dropWhile isJsSpace).length := by rw [List.length_reverse]
    _ ≤ s.length := length_dropWhile_le isJsSpace s

/-! ## C4 — rejected edits mutate nothing -/

/-- C4: for every stored message, an edit request whose message is stale
(created more than 15 minutes before now), or whose requester is not the
original sender, or whose content type is not TEXT, makes
`ChatService.editMessage` throw with the corresponding specific reason, and
the table — in particular the message's `rawContent`, `isEdited`,
`translations` and `confidenceScore` — is left unchanged. -/
theorem editMessage_rejects_without_mutation
    (store : List Message) (messageId userId newContent : Str) (now : Int)
    (msg : Message) (hfind : findMessageById store messageId = some msg)
    (hbad : msg.senderId ≠ userId ∨ msg.contentType ≠ MessageContentType.TEXT ∨
      msg.createdAt < now - editWindowMs) :
    (∃ e, editMessage store messageId userId newContent now = .error e) ∧
    editMessageStore store messageId userId newContent now = store ∧
    (msg.senderId ≠ userId →
      editMessage store messageId userId newContent now =
        .error editNotOwnerMsg) ∧
    (msg.senderId = userId → msg.contentType ≠ MessageContentType.TEXT →
      editMessage store messageId userId newContent now =
        .error editOnlyTextMsg) ∧
    (msg.senderId = userId → msg.contentType = MessageContentType.TEXT →
      msg.createdAt < now - editWindowMs →
      editMessage store messageId userId newContent now =
        .error editWindowExpiredMsg) := by
  by_cases h1 : msg.senderId = userId
  · by_cases h2 : msg.contentType = MessageContentType.TEXT
    · by_cases h3 : msg.createdAt < now - editWindowMs
      · have he : editMessage store messageId userId newContent now =
            .error editWindowExpiredMsg := by
          simp [editMessage, hfind, h1, h2, h3]
        exact ⟨⟨_, he⟩, by simp [editMessageStore, he],
          fun h => absurd h1 h, fun _ h => absurd h2 h, fun _ _ _ => he⟩
      · rcases hbad with h | h | h
        · exact absurd h1 h
        · exact absurd h2 h
        · exact absurd h h3
    · have he : editMessage store messageId userId newContent now =
          .error editOnlyTextMsg := by
        simp [editMessage, hfind, h1, h2]
      exact ⟨⟨_, he⟩, by simp [editMessageStore, he],
        fun h => absurd h1 h, fun _ _ => he, fun _ h _ => absurd h h2⟩
  · have he : editMessage store messageId userId newContent now =
        .error editNotOwnerMsg := by
      simp [editMessage, hfind, h1]
    exact ⟨⟨_, he⟩, by simp [editMessageStore, he],
      fun _ => he, fun h _ => absurd h h1, fun h _ _ => absurd h h1⟩

/-- C4 witness: user `b` trying to edit `a`'s message is rejected with the
ownership reason and the table is unchanged. -/
theorem editMessage_rejects_without_mutation_witness :
    findMessageById [c4Msg] ['m'] = some c4Msg ∧
    (c4Msg.senderId ≠ ['b'] ∨ c4Msg.contentType ≠ MessageContentType.TEXT ∨
      c4Msg.createdAt < (1000 : Int) - editWindowMs) ∧
    ((∃ e, editMessage [c4Msg] ['m'] ['b'] "hi".toList 1000 = .error e) ∧
      editMessageStore [c4Msg] ['m'] ['b'] "hi".toList 1000 = [c4Msg] ∧
      (c4Msg.senderId ≠ ['b'] →
        editMessage [c4Msg] ['m'] ['b'] "hi".toList 1000 =
          .error editNotOwnerMsg) ∧
      (c4Msg.senderId = ['b'] →
        c4Msg.contentType ≠ MessageContentType.TEXT →
        editMessage [c4Msg] ['m'] ['b'] "hi".toList 1000 =
          .error editOnlyTextMsg) ∧
      (c4Msg.senderId = ['b'] → c4Msg.contentType = MessageContentType.TEXT →
        c4Msg.createdAt < (1000 : Int) - editWindowMs →
        editMessage [c4Msg] ['m'] ['b'] "hi".toList 1000 =
          .error editWindowExpiredMsg)) :=
  ⟨by decide, by decide,
    editMessage_rejects_without_mutation [c4Msg] ['m'] ['b'] "hi".toList 1000
      c4Msg (by decide) (by decide)⟩

/-! ## C3 — delete is all-or-nothing -/

lemma find?_filter_mem (store : List Message) (ids : List Str) (id : Str)
    (hid : id ∈ ids) :
    findMessageById (store.filter fun m => decide (m.id ∈ ids)) id =
      findMessageById store id := by
  induction store with
  | nil => rfl
  | cons x s ih =>
    by_cases hx : x.id ∈ ids
    · have hflt : List.filter (fun m => decide (m.id ∈ ids)) (x :: s) =
          x :: List.filter (fun m => decide (m.id ∈ ids)) s :=
        List.filter_cons_of_pos (by simpa using hx)
      unfold findMessageById at ih ⊢
      rw [hflt, List.find?_cons, List.find?_cons]
      by_cases hxi : x.id = id
      · simp [hxi]
      · simp [hxi, ih]
    · have hflt : List.filter (fun m => decide (m.id ∈ ids)) (x :: s) =
          List.filter (fun m => decide (m.id ∈ ids)) s :=
        List.filter_cons_of_neg (by simpa using hx)
      have hxid : ¬(x.id = id) := fun h => hx (h ▸ hid)
      unfold findMessageById at ih ⊢
      rw [hflt, List.find?_cons]
      simp [hxid, ih]

lemma deleteCheck_none_iff (messages : List Message) (userId : Str) :
    ∀ ids : List Str,
    (deleteCheck messages userId ids = none ↔
      ∀ id ∈ ids, ∃ m, messages.find? (fun m => m.id = id) = some m ∧
        m.senderId = userId)
  | [] => by simp [deleteCheck]
  | id :: rest => by
    unfold deleteCheck
    cases hfind : messages.find? (fun m => m.id = id) with
    | none => simp [hfind]
    | some m =>
      by_cases hown : m.senderId = userId
      · simp only [hown, if_true]
        rw [deleteCheck_none_iff messages userId rest]
        constructor
        · intro h id2 hid2
          rcases List.mem_cons.mp hid2 with h2 | h2
          · subst h2
            exact ⟨m, by simpa using hfind, hown⟩
          · exact h id2 h2
        · intro h id2 hid2
          exact h id2 (List.mem_cons_of_mem _ hid2)
      · simp only [hown, if_false]
        constructor
        · intro h; cases h
        · intro h
          rcases h id (List.mem_cons_self _ _) with ⟨m2, hm2, hm2own⟩
          rw [hfind] at hm2
          cases hm2
          exact absurd hm2own hown

lemma deleteCheck_some_owner (messages : List Message) (userId : Str) :
    ∀ ids : List Str,
    (∀ id ∈ ids, (messages.find? (fun m => m.id = id)).isSome) →
    ∀ e, deleteCheck messages userId ids = some e → e = deleteNotOwnerMsg
  | [] => by simp [deleteCheck]
  | id :: rest => by
    intro hsome e
    unfold deleteCheck
    cases hfind : messages.find? (fun m => m.id = id) with
    | none =>
      have := hsome id (List.mem_cons_self _ _)
      rw [hfind] at this
      cases this
    | some m =>
      by_cases hown : m.senderId = userId
      · simp only [hown, if_true]
        exact deleteCheck_some_owner messages userId rest
          (fun id2 h2 => hsome id2 (List.mem_cons_of_mem _ h2)) e
      · simp only [hown, if_false]
        intro h
        exact (Option.some_inj.mp h).symm

/-- C3: `ChatService.deleteMessages` is all-or-nothing.  If some requested id
is missing or not owned by the requester, the operation throws and the table
is unchanged (zero deletions) — and when every id resolves but some row is
not owned, the reason is the not-owner reason.  If every requested message
exists and is owned by the requester, the operation succeeds and removes
exactly the requested messages. -/
theorem deleteMessages_all_or_nothing (store : List Message)
    (messageIds : List Str) (userId : Str) :
    (¬(∀ id ∈ messageIds, ∃ m, findMessageById store id = some m ∧
        m.senderId = userId) →
      (∃ e, deleteMessages store messageIds userId = .error e) ∧
      deleteMessagesStore store messageIds userId = store) ∧
    ((∀ id ∈ messageIds, ∃ m, findMessageById store id = some m ∧
        m.senderId = userId) →
      ∃ store2, deleteMessages store messageIds userId = .ok store2 ∧
        (∀ m ∈ store, m.id ∈ messageIds → m ∉ store2) ∧
        (∀ m ∈ store, m.id ∉ messageIds → m ∈ store2) ∧
        (∀ m ∈ store2, m ∈ store)) ∧
    ((∀ id ∈ messageIds, (findMessageById store id).isSome) →
      ¬(∀ id ∈ messageIds, ∃ m, findMessageById store id = some m ∧
        m.senderId = userId) →
      deleteMessages store messageIds userId = .error deleteNotOwnerMsg) := by
  by_cases hnil : messageIds.length = 0
  · have hids : messageIds = [] := List.length_eq_zero.mp hnil
    subst hids
    refine ⟨fun hno => absurd (by simp) hno,
      fun _ => ⟨store, by simp [deleteMessages], by simp, by simp, by simp⟩,
      fun _ hno => absurd (by simp) hno⟩
  · have hbridge : ∀ id ∈ messageIds,
        findMessageById (store.filter fun m => decide (m.id ∈ messageIds)) id
          = findMessageById store id :=
      fun id hid => find?_filter_mem store messageIds id hid
    have hiff : deleteCheck (store.filter fun m => decide (m.id ∈ messageIds))
        userId messageIds = none ↔
        ∀ id ∈ messageIds, ∃ m, findMessageById store id = some m ∧
          m.senderId = userId := by
      rw [deleteCheck_none_iff]
      constructor
      · intro h id hid
        rw [← hbridge id hid]
        exact h id hid
      · intro h id hid
        rw [show (store.filter fun m => decide (m.id ∈ messageIds)).find?
            (fun m => m.id = id) = findMessageById store id from
          hbridge id hid]
        exact h id hid
    refine ⟨?_, ?_, ?_⟩
    · intro hno
      have hne : deleteCheck (store.filter fun m =>
          decide (m.id ∈ messageIds)) userId messageIds ≠ none :=
        fun h => hno (hiff.mp h)
      rcases Option.ne_none_iff_exists'.mp hne with ⟨e, he⟩
      have herr : deleteMessages store messageIds userId = .error e := by
        simp [deleteMessages, hnil, he]
      exact ⟨⟨e, herr⟩, by simp [deleteMessagesStore, herr]⟩
    · intro hyes
      have hchk := hiff.mpr hyes
      refine ⟨store.filter fun m => !decide (m.id ∈ messageIds),
        by simp [deleteMessages, hnil, hchk], ?_, ?_, ?_⟩
      · intro m _ hmid hmem
        rcases List.mem_filter.mp hmem with ⟨_, hp⟩
        simp [hmid] at hp
      · intro m hm hmid
        exact List.mem_filter.mpr ⟨hm, by simp [hmid]⟩
      · intro m hm
        exact (List.mem_filter.mp hm).1
    · intro hsome hno
      have hne : deleteCheck (store.filter fun m =>
          decide (m.id ∈ messageIds)) userId messageIds ≠ none :=
        fun h => hno (hiff.mp h)
      rcases Option.ne_none_iff_exists'.mp hne with ⟨e, he⟩
      have hsome2 : ∀ id ∈ messageIds,
          ((store.filter fun m => decide (m.id ∈ messageIds)).find?
            (fun m => m.id = id)).isSome := by
        intro id hid
        rw [show (store.filter fun m => decide (m.id ∈ messageIds)).find?
            (fun m => m.id = id) = findMessageById store id from
          hbridge id hid]
        exact hsome id hid
      have := deleteCheck_some_owner _ userId messageIds hsome2 e he
      subst this
      simp [deleteMessages, hnil, he]

/-- C3 witness: requesting deletion of `[msgA (owned), msgB (not owned)]`
throws the not-owner reason and deletes neither; the owned-only request
`[msgA]` deletes exactly `msgA`. -/
theorem deleteMessages_all_or_nothing_witness :
    deleteMessages [c3MsgA, c3MsgB] ["ma".toList, "mb".toList] ['a'] =
      .error deleteNotOwnerMsg ∧
    deleteMessagesStore [c3MsgA, c3MsgB] ["ma".toList, "mb".toList] ['a'] =
      [c3MsgA, c3MsgB] ∧
    deleteMessages [c3MsgA, c3MsgB] ["ma".toList] ['a'] = .ok [c3MsgB] := by
  have h := deleteMessages_all_or_nothing [c3MsgA, c3MsgB]
    ["ma".toList, "mb".toList] ['a']
  exact ⟨h.2.2 (by decide) (by decide), (h.1 (by decide)).2, by rfl⟩

/-! ## C8 — dictionary budget and oldest-first prefix -/

lemma dictLoop_eq_take (es : List PersonalContext) :
    ∀ compiled : Str,
    dictLoop compiled es =
      compiled ++
        ((es.take (includedCount compiled.length es)).map entryFragment).flatten := by
  induction es with
  | nil => intro compiled; simp [dictLoop, includedCount]
  | cons e es ih =>
    intro compiled
    unfold dictLoop includedCount
    by_cases hover :
        compiled.length + (entryFragment e).length > maxDictionaryChars
    · simp [hover]
    · simp only [hover, if_false]
      rw [ih (compiled ++ entryFragment e)]
      rw [List.length_append,
        Nat.add_comm 1 (includedCount (compiled.length +
          (entryFragment e).length) es),
        List.take_succ_cons]
      simp [List.append_assoc]

lemma dictLoop_length_le (es : List PersonalContext) :
    ∀ compiled : Str, compiled.length ≤ maxDictionaryChars →
    (dictLoop compiled es).length ≤ maxDictionaryChars := by
  induction es with
  | nil => intro compiled h; simpa [dictLoop] using h
  | cons e es ih =>
    intro compiled h
    unfold dictLoop
    by_cases hover :
        compiled.length + (entryFragment e).length > maxDictionaryChars
    · simpa [hover] using h
    · simp only [hover, if_false]
      exact ih (compiled ++ entryFragment e) (by simpa using Nat.le_of_not_lt hover)

lemma includedCount_le_length (es : List PersonalContext) :
    ∀ len : Nat, includedCount len es ≤ es.length := by
  induction es with
  | nil => intro len; simp [includedCount]
  | cons e es ih =>
    intro len
    have := ih (len + (entryFragment e).length)
    unfold includedCount
    split
    · simp
    · simp only [List.length_cons]
      omega

lemma includedCount_exceeds (es : List PersonalContext) :
    ∀ (len : Nat) (eK : PersonalContext),
    es[includedCount len es]? = some eK →
    len + (((es.take (includedCount len es)).map entryFragment).flatten).length
      + (entryFragment eK).length > maxDictionaryChars := by
  induction es with
  | nil => intro len eK h; simp at h
  | cons e es ih =>
    intro len eK hK
    by_cases hover : len + (entryFragment e).length > maxDictionaryChars
    · have hc : includedCount len (e :: es) = 0 := by
        conv_lhs => rw [includedCount]
        exact if_pos hover
      rw [hc] at hK ⊢
      have heq : e = eK := by simpa using hK
      subst heq
      simpa using hover
    · have hc : includedCount len (e :: es) =
          includedCount (len + (entryFragment e).length) es + 1 := by
        conv_lhs => rw [includedCount]
        rw [if_neg hover, Nat.add_comm]
      rw [hc] at hK ⊢
      rw [List.getElem?_cons_succ] at hK
      have := ih (len + (entryFragment e).length) eK hK
      rw [List.take_succ_cons]
      simp only [List.map_cons, List.flatten_cons, List.length_append]
      omega

/-- C8: the compiled personal dictionary never exceeds the 1500-character
budget, and it consists of the header followed by the fragments of exactly a
prefix of the oldest-first entry list — the greedy count `includedCount` —
where, if any entry was dropped, already the first dropped entry would have
pushed the string over the budget. -/
theorem getUserDictionary_budget (entries : List PersonalContext) :
    (getUserDictionary entries).length ≤ maxDictionaryChars ∧
    (entries.isEmpty = false →
      getUserDictionary entries =
        jsTrim (dictHeader ++
          ((entries.take (includedCount dictHeader.length entries)).map
            entryFragment).flatten)) ∧
    includedCount dictHeader.length entries ≤ entries.length ∧
    (∀ eK, entries[includedCount dictHeader.length entries]? = some eK →
      dictHeader.length +
        (((entries.take (includedCount dictHeader.length entries)).map
          entryFragment).flatten).length +
        (entryFragment eK).length > maxDictionaryChars) := by
  refine ⟨?_, ?_, includedCount_le_length entries dictHeader.length,
    includedCount_exceeds entries dictHeader.length⟩
  · unfold getUserDictionary
    split
    · simp
    · exact le_trans (jsTrim_length_le _)
        (dictLoop_length_le entries dictHeader (by decide))
  · intro hne
    unfold getUserDictionary
    rw [if_neg (by simp [hne])]
    rw [dictLoop_eq_take]

set_option maxRecDepth 20000 in
/-- C8 witness: with one small and one oversized entry, the compiled string
keeps only the oldest-first prefix (here just the small entry), stays within
budget, and the first dropped entry is exactly the one whose addition would
exceed it. -/
theorem getUserDictionary_budget_witness :
    (getUserDictionary [c8SmallEntry, c8BigEntry]).length ≤
      maxDictionaryChars ∧
    includedCount dictHeader.length [c8SmallEntry, c8BigEntry] = 1 ∧
    getUserDictionary [c8SmallEntry, c8BigEntry] =
      jsTrim (dictHeader ++
        (([c8SmallEntry, c8BigEntry].take 1).map entryFragment).flatten) ∧
    dictHeader.length +
      ((([c8SmallEntry, c8BigEntry].take 1).map entryFragment).flatten).length +
      (entryFragment c8BigEntry).length > maxDictionaryChars := by
  have h := getUserDictionary_budget [c8SmallEntry, c8BigEntry]
  have hcount : includedCount dictHeader.length [c8SmallEntry, c8BigEntry]
      = 1 := by decide
  refine ⟨h.1, hcount, ?_, ?_⟩
  · have := h.2.1 (by decide)
    rwa [hcount] at this
  · have hK : ([c8SmallEntry, c8BigEntry] :
        List PersonalContext)[includedCount dictHeader.length
          [c8SmallEntry, c8BigEntry]]? = some c8BigEntry := by
      rw [hcount]; rfl
    have := h.2.2.2 c8BigEntry hK
    rwa [hcount] at this

/-! ## C9 — search pagination and page-independent total -/

/-- C9: full-text search returns at most `limit` rows, those rows are exactly
the slice of the newest-first matching set starting at offset
`(page-1)*limit`, and the returned total is the number of all matching
messages, independent of the requested page. -/
theorem searchMessages_pagination (store : List Message)
    (groupId query : Str) (rowMatches : Message → Bool) (page limit : Nat) :
    (searchMessages store groupId query rowMatches page limit).1.length ≤
      limit ∧
    (searchMessages store groupId query rowMatches page limit).2 =
      (matchingMessages store groupId query rowMatches).length ∧
    (∀ page2, (searchMessages store groupId query rowMatches page2 limit).2 =
      (searchMessages store groupId query rowMatches page limit).2) ∧
    (∀ j, (searchMessages store groupId query rowMatches page limit).1[j]? =
      if j < limit then
        (sortNewestFirst (matchingMessages store groupId query
          rowMatches))[(page - 1) * limit + j]?
      else none) := by
  by_cases hq : (sanitiseQuery query).isEmpty
  · refine ⟨?_, ?_, ?_, ?_⟩ <;>
      simp [searchMessages, matchingMessages, hq, sortNewestFirst]
  · have hres : (searchMessages store groupId query rowMatches page limit).1 =
        List.take limit (List.drop ((page - 1) * limit)
          (sortNewestFirst (matchingMessages store groupId query
            rowMatches))) := by
      simp [searchMessages, matchingMessages, hq]
    have htot : ∀ p : Nat,
        (searchMessages store groupId query rowMatches p limit).2 =
        (matchingMessages store groupId query rowMatches).length := by
      intro p; simp [searchMessages, matchingMessages, hq]
    refine ⟨?_, htot page, ?_, ?_⟩
    · rw [hres]; exact List.length_take_le limit _
    · intro page2; rw [htot page2, htot page]
    · intro j
      rw [hres]
      by_cases hj : j < limit
      · rw [if_pos hj, List.getElem?_take_of_lt hj, List.getElem?_drop]
      · rw [if_neg hj]
        exact List.getElem?_eq_none
          (le_trans (List.length_take_le limit _) (Nat.le_of_not_lt hj))

set_option maxRecDepth 4000 in
/-- C9 witness: page 2 with limit 20 over a 25-match set returns exactly 5
rows and `total = 25`, the row count is within the limit, and the total is
the same when requested from page 1. -/
theorem searchMessages_pagination_witness :
    (searchMessages c9Store ['g'] "hi".toList (fun _ => true) 2 20).1.length
      = 5 ∧
    (searchMessages c9Store ['g'] "hi".toList (fun _ => true) 2 20).2 = 25 ∧
    (searchMessages c9Store ['g'] "hi".toList (fun _ => true) 2 20).1.length
      ≤ 20 ∧
    (searchMessages c9Store ['g'] "hi".toList (fun _ => true) 1 20).2 =
      (searchMessages c9Store ['g'] "hi".toList (fun _ => true) 2 20).2 := by
  have h := searchMessages_pagination c9Store ['g'] "hi".toList
    (fun _ => true) 2 20
  exact ⟨by decide, by decide, h.1, h.2.2.1 1⟩

/-! ## C2 — the server-side audibility gate -/

/-- C2: on a valid, member-authorised audio submission, the mediation result
is gated before anything touches the `messages` table: `confidenceScore ≤ 5`
or a blank transcription yields the distinct `audioNotAudible` outcome with
the table unchanged and nothing broadcast, and otherwise the message is
persisted and then broadcast as `newMessage`. -/
theorem processAudio_audibility_gate (store : List Message)
    (members : List (Str × Str)) (userId : Str)
    (g a : Str) (audioMimeTypeRaw : Option Str) (fileUrl newId : Str)
    (now : Int) (isValidTs : Str → Bool) (mediation : TranslationResult)
    (hg : (jsTrim g).isEmpty = false)
    (ha : ¬((jsTrim a).length < 10))
    (hmem : isMember members (jsTrim g) userId = true) :
    ((mediation.confidenceScore ≤ 5 ∨
        (jsTrim mediation.transcription).isEmpty = true) →
      (processAudio store members userId (some g) (some a) audioMimeTypeRaw
          fileUrl newId now isValidTs mediation).outcome =
        AudioOutcome.audioNotAudible ∧
      (processAudio store members userId (some g) (some a) audioMimeTypeRaw
          fileUrl newId now isValidTs mediation).store = store ∧
      (processAudio store members userId (some g) (some a) audioMimeTypeRaw
          fileUrl newId now isValidTs mediation).events = []) ∧
    (¬(mediation.confidenceScore ≤ 5 ∨
        (jsTrim mediation.transcription).isEmpty = true) →
      ∃ m, (processAudio store members userId (some g) (some a)
          audioMimeTypeRaw fileUrl newId now isValidTs mediation).outcome =
        AudioOutcome.success m ∧
      (processAudio store members userId (some g) (some a) audioMimeTypeRaw
          fileUrl newId now isValidTs mediation).store = store ++ [m] ∧
      m.contentType = MessageContentType.AUDIO ∧
      m.translations = some mediation.translations ∧
      m.confidenceScore = some mediation.confidenceScore ∧
      m.transcription = some mediation.transcription ∧
      ∃ pa, (processAudio store members userId (some g) (some a)
          audioMimeTypeRaw fileUrl newId now isValidTs mediation).events =
        [GwEvent.newMessageBroadcast (jsTrim g) m.id userId
          MessageContentType.AUDIO (some fileUrl)
          (some mediation.transcription) (some mediation.transcription)
          (some mediation.translations) mediation.confidenceScore pa]) := by
  constructor
  · intro hbad
    have : processAudio store members userId (some g) (some a)
        audioMimeTypeRaw fileUrl newId now isValidTs mediation =
        ⟨AudioOutcome.audioNotAudible, store, []⟩ := by
      simp only [processAudio, hg, ha, hmem]
      simp [processAudio, hg, ha, hmem]
      intro h5
      rcases hbad with h | h
      · omega
      · simpa using h
    simp [this]
  · intro hok
    refine ⟨(saveMessage store newId now userId (jsTrim g)
      MessageContentType.AUDIO fileUrl (some mediation.transcription)
      (some mediation.translations) (some mediation.confidenceScore)
      (match mediation.extractedActions with
        | some l => if l.length > 0 then some (processActions isValidTs l)
                    else none
        | none => none)).1, ?_⟩
    have hrun : processAudio store members userId (some g) (some a)
        audioMimeTypeRaw fileUrl newId now isValidTs mediation =
        (let processedActions : Option (List ExtractedAction) :=
          match mediation.extractedActions with
          | some l => if l.length > 0 then some (processActions isValidTs l)
                      else none
          | none => none
        let saved := saveMessage store newId now userId (jsTrim g)
          MessageContentType.AUDIO fileUrl (some mediation.transcription)
          (some mediation.translations) (some mediation.confidenceScore)
          processedActions
        ⟨AudioOutcome.success saved.1, saved.2,
          [GwEvent.newMessageBroadcast (jsTrim g) saved.1.id userId
            MessageContentType.AUDIO (some fileUrl)
            (some mediation.transcription) (some mediation.transcription)
            (some mediation.translations) mediation.confidenceScore
            processedActions]⟩) := by
      have h1 : ¬ mediation.confidenceScore ≤ 5 := fun h => hok (Or.inl h)
      have h2 : ¬ (jsTrim mediation.transcription).isEmpty = true :=
        fun h => hok (Or.inr h)
      simp [processAudio, hg, ha, hmem]
      exact ⟨by omega, by simpa using h2⟩
    rw [hrun]
    refine ⟨rfl, by simp [saveMessage], rfl, rfl, rfl, rfl, ?_⟩
    exact ⟨_, rfl⟩

/-- C2 witness: with valid inputs and membership, a `confidenceScore = 3`
result with a non-empty transcription is still rejected as `audioNotAudible`
with nothing persisted or broadcast, while a high-confidence result is
persisted and then broadcast. -/
theorem processAudio_audibility_gate_witness :
    ((processAudio [] [(['g'], ['u'])] ['u'] (some ['g'])
        (some "aGVsbG8gd29ybGQ=".toList) none "f.m4a".toList ['m'] 0
        (fun _ => true) c2LowConf).outcome =
      AudioOutcome.audioNotAudible ∧
     (processAudio [] [(['g'], ['u'])] ['u'] (some ['g'])
        (some "aGVsbG8gd29ybGQ=".toList) none "f.m4a".toList ['m'] 0
        (fun _ => true) c2LowConf).store = [] ∧
     (processAudio [] [(['g'], ['u'])] ['u'] (some ['g'])
        (some "aGVsbG8gd29ybGQ=".toList) none "f.m4a".toList ['m'] 0
        (fun _ => true) c2LowConf).events = []) ∧
    (∃ m, (processAudio [] [(['g'], ['u'])] ['u'] (some ['g'])
        (some "aGVsbG8gd29ybGQ=".toList) none "f.m4a".toList ['m'] 0
        (fun _ => true) c2HighConf).outcome = AudioOutcome.success m ∧
      (processAudio [] [(['g'], ['u'])] ['u'] (some ['g'])
        (some "aGVsbG8gd29ybGQ=".toList) none "f.m4a".toList ['m'] 0
        (fun _ => true) c2HighConf).store = [] ++ [m]) := by
  constructor
  · exact (processAudio_audibility_gate [] [(['g'], ['u'])] ['u'] ['g']
      "aGVsbG8gd29ybGQ=".toList none "f.m4a".toList ['m'] 0 (fun _ => true)
      c2LowConf (by decide) (by decide) (by decide)).1 (by decide)
  · rcases (processAudio_audibility_gate [] [(['g'], ['u'])] ['u'] ['g']
      "aGVsbG8gd29ybGQ=".toList none "f.m4a".toList ['m'] 0 (fun _ => true)
      c2HighConf (by decide) (by decide) (by decide)).2 (by decide) with
      ⟨m, h1, h2, _⟩
    exact ⟨m, h1, h2⟩

/-! ## C1 — `sendMessage` performs no membership check -/

/-- C1 evaluation: user `u` has no Membership anywhere (the membership table
is empty), yet the gateway handler — which consults no membership table at
all — still calls the Language Mediator, persists the message, and
broadcasts `newMessage` to the room.  The spec requires rejection before any
side effect. -/
theorem sendMessage_nonmember_persists_and_broadcasts :
    isMember [] ['g'] ['u'] = false ∧
    (sendMessage [] (some ['u']) c1Raw (fun _ => true) c1Mediation ['m']
      0).mediationCalled = true ∧
    (sendMessage [] (some ['u']) c1Raw (fun _ => true) c1Mediation ['m']
      0).store.length = 1 ∧
    ((sendMessage [] (some ['u']) c1Raw (fun _ => true) c1Mediation ['m']
      0).events.any GwEvent.isNewMessage) = true := by
  refine ⟨by decide, ?_, ?_, ?_⟩ <;> rfl

/-! ## C5 — reconciliation replaces the first (newest) pending placeholder -/

lemma jsFindIndex_spec {α : Type} (p : α → Bool) :
    ∀ (l : List α) (i : Nat), jsFindIndex p l = some i →
      (∃ a, l[i]? = some a ∧ p a = true) ∧
      (∀ j, j < i → ∀ a, l[j]? = some a → p a = false) := by
  intro l
  induction l with
  | nil => intro i h; simp [jsFindIndex] at h
  | cons x xs ih =>
    intro i h
    unfold jsFindIndex at h
    by_cases hx : p x
    · rw [if_pos hx] at h
      cases h
      exact ⟨⟨x, by simp, hx⟩, fun j hj => absurd hj (Nat.not_lt_zero j)⟩
    · rw [if_neg hx] at h
      rcases Option.map_eq_some'.mp h with ⟨i', hi', rfl⟩
      rcases ih i' hi' with ⟨⟨a, ha, hpa⟩, hmin⟩
      refine ⟨⟨a, by simpa using ha, hpa⟩, ?_⟩
      intro j hj b hb
      cases j with
      | zero =>
        simp only [List.getElem?_cons_zero, Option.some_inj] at hb
        subst hb
        simpa using hx
      | succ j' =>
        rw [List.getElem?_cons_succ] at hb
        exact hmin j' (Nat.lt_of_succ_lt_succ hj) b hb

/-- C5 counterexample: the local list is newest-first, so with two pending
placeholders (`b` inserted after `a`, hence at the head) the claim's "oldest
placeholder replaced" predicts `[pending b, authoritative]`; the code's
`findIndex` takes the head match instead and produces
`[authoritative, pending a]`. -/
theorem handleNewMessage_replaces_newest_not_oldest :
    handleNewMessage c5Evt ['u'] "t".toList [c5Pending ['b'], c5Pending ['a']]
      ≠ [c5Pending ['b'], serverEventToChatMessage c5Evt "t".toList] ∧
    handleNewMessage c5Evt ['u'] "t".toList [c5Pending ['b'], c5Pending ['a']]
      = [serverEventToChatMessage c5Evt "t".toList, c5Pending ['a']] := by
  constructor <;> decide

/-- C5 (amended): when the broadcast's sender is the local user and a pending
placeholder from that sender exists, the handler replaces, in place, the
matching placeholder closest to the head of the newest-first list — i.e. the
most recently inserted pending placeholder, not the oldest; every entry
before it is not a pending placeholder of that sender.  A broadcast from a
different sender, or one arriving with no pending placeholder, is prepended
and no placeholder is touched. -/
theorem handleNewMessage_reconciliation (evt : NewMessageEvent)
    (u nowIso : Str) (prev : List ChatMessage) :
    (evt.senderId = u →
      ∀ i, jsFindIndex (isPendingFrom u) prev = some i →
        handleNewMessage evt u nowIso prev =
          prev.set i (serverEventToChatMessage evt nowIso) ∧
        (∃ m, prev[i]? = some m ∧ isPendingFrom u m = true) ∧
        (∀ j, j < i → ∀ m, prev[j]? = some m → isPendingFrom u m = false)) ∧
    (evt.senderId = u → jsFindIndex (isPendingFrom u) prev = none →
      handleNewMessage evt u nowIso prev =
        serverEventToChatMessage evt nowIso :: prev) ∧
    (evt.senderId ≠ u →
      handleNewMessage evt u nowIso prev =
        serverEventToChatMessage evt nowIso :: prev) := by
  refine ⟨?_, ?_, ?_⟩
  · intro hs i hfind
    rcases jsFindIndex_spec (isPendingFrom u) prev i hfind with ⟨hat, hmin⟩
    exact ⟨by simp [handleNewMessage, hs, hfind], hat, hmin⟩
  · intro hs hfind
    simp [handleNewMessage, hs, hfind]
  · intro hs
    simp [handleNewMessage, hs]

/-- C5 witness: with a single pending placeholder at the head, the amended
theorem applies and the handler replaces it in place. -/
theorem handleNewMessage_reconciliation_witness :
    c5Evt.senderId = ['u'] ∧
    jsFindIndex (isPendingFrom ['u']) [c5Pending ['a']] = some 0 ∧
    handleNewMessage c5Evt ['u'] "t".toList [c5Pending ['a']] =
      ([c5Pending ['a']].set 0 (serverEventToChatMessage c5Evt "t".toList)) ∧
    (∃ m, ([c5Pending ['a']] : List ChatMessage)[0]? = some m ∧
      isPendingFrom ['u'] m = true) := by
  have h := (handleNewMessage_reconciliation c5Evt ['u'] "t".toList
    [c5Pending ['a']]).1 (by decide) 0 (by decide)
  exact ⟨by decide, by decide, h.1, h.2.1⟩

/-! ## C6 — the client-side silence guard -/

lemma foldl_max_lt (c : Int) :
    ∀ (xs : List Int) (x : Int), (∀ s ∈ x :: xs, s < c) →
      xs.foldl max x < c := by
  intro xs
  induction xs with
  | nil => intro x h; exact h x (by simp)
  | cons y ys ih =>
    intro x h
    rw [List.foldl_cons]
    refine ih (max x y) ?_
    intro s hs
    rcases List.mem_cons.mp hs with hs | hs
    · subst hs
      exact max_lt (h x (by simp)) (h y (by simp))
    · exact h s (by simp [hs])

/-- C6 counterexample: a recording whose peak metering sample is exactly the
−45 dBFS threshold never exceeds the threshold, yet the guard (`peak <
threshold`) does not fire: the recording is uploaded, not rejected. -/
theorem handleStopRecording_boundary_counterexample :
    (∀ s ∈ ([-45] : List Int), s ≤ silenceThresholdDb) ∧
    handleStopRecording true false 600 [-45] (some "file:a.m4a".toList)
      (List.replicate 16 'a') ≠ StopOutcome.silentRejected ∧
    (handleStopRecording true false 600 [-45] (some "file:a.m4a".toList)
      (List.replicate 16 'a')).sendsOverNetwork = true := by
  refine ⟨by decide, by decide, by decide⟩

/-- C6 (amended): for a completed (not cancelled) recording of at least
500 ms with at least one metering sample, if the peak sampled level is
strictly below the −45 dBFS threshold, the recording is rejected locally
with the re-record prompt and no network call is made. -/
theorem handleStopRecording_silence_guard (wasCancelled : Bool)
    (durationMs : Nat) (x : Int) (xs : List Int) (uri : Option Str)
    (fileBase64 : Str) (hc : wasCancelled = false) (hd : 500 ≤ durationMs)
    (hsilent : ∀ s ∈ x :: xs, s < silenceThresholdDb) :
    handleStopRecording true wasCancelled durationMs (x :: xs) uri
      fileBase64 = StopOutcome.silentRejected ∧
    (handleStopRecording true wasCancelled durationMs (x :: xs) uri
      fileBase64).sendsOverNetwork = false := by
  subst hc
  have hmax : xs.foldl max x < silenceThresholdDb := foldl_max_lt _ xs x hsilent
  have hrun : handleStopRecording true false durationMs (x :: xs) uri
      fileBase64 = StopOutcome.silentRejected := by
    simp [handleStopRecording, Nat.not_lt_of_le hd, hmax]
  exact ⟨hrun, by rw [hrun]; rfl⟩

/-- C6 witness: a 600 ms recording whose single sample sits at −80 dBFS is
rejected locally and nothing is sent. -/
theorem handleStopRecording_silence_guard_witness :
    (false = false ∧ 500 ≤ 600 ∧ (∀ s ∈ ([-80] : List Int),
      s < silenceThresholdDb)) ∧
    handleStopRecording true false 600 [-80] (some "file:a.m4a".toList)
      (List.replicate 16 'a') = StopOutcome.silentRejected ∧
    (handleStopRecording true false 600 [-80] (some "file:a.m4a".toList)
      (List.replicate 16 'a')).sendsOverNetwork = false := by
  have h := handleStopRecording_silence_guard false 600 (-80) []
    (some "file:a.m4a".toList) (List.replicate 16 'a') rfl (by decide)
    (by decide)
  exact ⟨⟨rfl, by decide, by decide⟩, h.1, h.2⟩

/-! ## C7 — translations and confidence are both-null or both-set -/

lemma invStore_append_one {store : List Message} {m : Message}
    (hinv : invStore store) (hm : bothNullOrBothSet m) :
    invStore (store ++ [m]) := by
  intro m2 hm2
  rcases List.mem_append.mp hm2 with h | h
  · exact hinv m2 h
  · simp only [List.mem_singleton] at h
    subst h
    exact hm

lemma invStore_sendMessage (store : List Message) (userId : Option Str)
    (raw : RawSendPayload) (isValidTs : Str → Bool)
    (mediation : TranslationResult) (newId : Str) (now : Int)
    (hinv : invStore store) :
    invStore (sendMessage store userId raw isValidTs mediation newId
      now).store := by
  unfold sendMessage
  split
  · exact hinv
  · split
    · exact hinv
    · split
      · exact hinv
      · refine invStore_append_one hinv ?_
        right
        constructor <;> simp [saveMessage]

lemma invStore_processAudio (store : List Message)
    (members : List (Str × Str)) (userId : Str)
    (g a m : Option Str) (fileUrl newId : Str) (now : Int)
    (isValidTs : Str → Bool) (mediation : TranslationResult)
    (hinv : invStore store) :
    invStore (processAudio store members userId g a m fileUrl newId now
      isValidTs mediation).store := by
  cases g with
  | none =>
    have heq : (processAudio store members userId none a m fileUrl newId now
        isValidTs mediation).store = store := by simp [processAudio]
    rw [heq]; exact hinv
  | some gRaw =>
    by_cases hg : (jsTrim gRaw).isEmpty
    · have heq : (processAudio store members userId (some gRaw) a m fileUrl
          newId now isValidTs mediation).store = store := by
        simp [processAudio, hg]
      rw [heq]; exact hinv
    · cases a with
      | none =>
        have heq : (processAudio store members userId (some gRaw) none m
            fileUrl newId now isValidTs mediation).store = store := by
          simp [processAudio, hg]
        rw [heq]; exact hinv
      | some aRaw =>
        by_cases ha : (jsTrim aRaw).length < 10
        · have heq : (processAudio store members userId (some gRaw)
              (some aRaw) m fileUrl newId now isValidTs mediation).store =
              store := by
            simp [processAudio, hg, ha]
          rw [heq]; exact hinv
        · by_cases hmem : isMember members (jsTrim gRaw) userId
          · by_cases hbad : mediation.confidenceScore ≤ 5 ∨
                (jsTrim mediation.transcription).isEmpty = true
            · have heq : (processAudio store members userId (some gRaw)
                  (some aRaw) m fileUrl newId now isValidTs mediation).store =
                  store := by
                have hrun : processAudio store members userId (some gRaw)
                    (some aRaw) m fileUrl newId now isValidTs mediation =
                    ⟨AudioOutcome.audioNotAudible, store, []⟩ := by
                  simp [processAudio, hg, ha, hmem]
                  intro h5
                  rcases hbad with h | h
                  · omega
                  · simpa using h
                simp [hrun]
              rw [heq]; exact hinv
            · have h1 : ¬ mediation.confidenceScore ≤ 5 :=
                fun h => hbad (Or.inl h)
              have h2 : ¬ (jsTrim mediation.transcription).isEmpty = true :=
                fun h => hbad (Or.inr h)
              have heq : (processAudio store members userId (some gRaw)
                  (some aRaw) m fileUrl newId now isValidTs mediation).store =
                  (saveMessage store newId now userId (jsTrim gRaw)
                    MessageContentType.AUDIO fileUrl
                    (some mediation.transcription)
                    (some mediation.translations)
                    (some mediation.confidenceScore)
                    (match mediation.extractedActions with
                      | some l => if l.length > 0 then
                          some (processActions isValidTs l) else none
                      | none => none)).2 := by
                have hcond : ¬(mediation.confidenceScore ≤ 5 ∨
                    jsTrim mediation.transcription = []) := by
                  rintro (h | h)
                  · exact h1 h
                  · exact h2 (by simpa using h)
                simp [processAudio, hg, ha, hmem, hcond]
              rw [heq]
              refine invStore_append_one hinv ?_
              right
              constructor <;> simp [saveMessage]
          · have heq : (processAudio store members userId (some gRaw)
                (some aRaw) m fileUrl newId now isValidTs mediation).store =
                store := by
              simp [processAudio, hg, ha, hmem]
            rw [heq]; exact hinv

lemma invStore_editMessageStore (store : List Message)
    (messageId userId newContent : Str) (now : Int) (hinv : invStore store) :
    invStore (editMessageStore store messageId userId newContent now) := by
  unfold editMessageStore
  cases hres : editMessage store messageId userId newContent now with
  | error e => simp only [hres]; exact hinv
  | ok p =>
    obtain ⟨m2, s⟩ := p
    simp only [hres]
    unfold editMessage at hres
    split at hres
    · exact absurd hres (by simp)
    · split at hres
      · split at hres
        · split at hres
          · exact absurd hres (by simp)
          · simp only [Except.ok.injEq, Prod.mk.injEq] at hres
            obtain ⟨hm2, hs⟩ := hres
            subst hs
            intro m hm
            rcases List.mem_map.mp hm with ⟨orig, horig, hrew⟩
            by_cases hid : orig.id = messageId
            · rw [← hrew]
              simp only [hid, if_true]
              left
              exact ⟨rfl, rfl⟩
            · rw [← hrew]
              simp only [hid, if_false]
              exact hinv orig horig
        · exact absurd hres (by simp)
      · exact absurd hres (by simp)

lemma invStore_retranslate (store : List Message) (messageId : Str)
    (mediation : TranslationResult) (hinv : invStore store) :
    invStore (match updateMessageTranslations store messageId
        mediation.translations mediation.confidenceScore with
      | .ok (_, s) => s
      | .error _ => store) := by
  cases hres : updateMessageTranslations store messageId
      mediation.translations mediation.confidenceScore with
  | error e => exact hinv
  | ok p =>
    obtain ⟨mres, s⟩ := p
    show invStore s
    unfold updateMessageTranslations at hres
    dsimp only at hres
    split at hres
    · simp only [Except.ok.injEq, Prod.mk.injEq] at hres
      obtain ⟨hmres, hs⟩ := hres
      subst hs
      intro m hm
      rcases List.mem_map.mp hm with ⟨orig, horig, hrew⟩
      by_cases hid : orig.id = messageId
      · rw [← hrew]
        simp only [hid, if_true]
        right
        constructor <;> simp
      · rw [← hrew]
        simp only [hid, if_false]
        exact hinv orig horig
    · exact absurd hres (by simp)

lemma invStore_stepOp (store : List Message) (op : SystemOp)
    (hinv : invStore store) : invStore (stepOp store op) := by
  cases op with
  | gatewaySend userId raw isValidTs mediation newId now =>
    exact invStore_sendMessage store userId raw isValidTs mediation newId
      now hinv
  | audioIngest members userId g a m fileUrl newId now isValidTs mediation =>
    exact invStore_processAudio store members userId g a m fileUrl newId
      now isValidTs mediation hinv
  | editText messageId userId newContent now =>
    exact invStore_editMessageStore store messageId userId newContent now hinv
  | retranslate messageId mediation =>
    exact invStore_retranslate store messageId mediation hinv

/-- C7: every message in a table reached from the empty table by any sequence
of the system's persisting operations — gateway text/media send, audio
ingestion, edit, re-translate — has `translations` and `confidenceScore`
either both null or both set. -/
theorem translations_confidence_invariant (ops : List SystemOp) :
    ∀ m ∈ runOps ops, bothNullOrBothSet m := by
  have hgen : ∀ (ops : List SystemOp) (store : List Message),
      invStore store → invStore (ops.foldl stepOp store) := by
    intro ops
    induction ops with
    | nil => intro store h; exact h
    | cons op rest ih =>
      intro store h
      exact ih (stepOp store op) (invStore_stepOp store op h)
  exact hgen ops [] (fun m hm => absurd hm (List.not_mem_nil m))

/-- C7 witness: after one gateway text send, the persisted row satisfies the
invariant (here with both fields set). -/
theorem translations_confidence_invariant_witness :
    c7Msg ∈ runOps [SystemOp.gatewaySend (some ['u']) c1Raw (fun _ => true)
      c1Mediation ['m'] 0] ∧
    bothNullOrBothSet c7Msg := by
  have hm : c7Msg ∈ runOps [SystemOp.gatewaySend (some ['u']) c1Raw
      (fun _ => true) c1Mediation ['m'] 0] := by
    rw [show runOps [SystemOp.gatewaySend (some ['u']) c1Raw (fun _ => true)
      c1Mediation ['m'] 0] = [c7Msg] from rfl]
    simp
  exact ⟨hm, translations_confidence_invariant [SystemOp.gatewaySend
    (some ['u']) c1Raw (fun _ => true) c1Mediation ['m'] 0] c7Msg hm⟩

/-! ## C10 — editFailed after a persisted edit -/

lemma findMessageById_map_set (store : List Message) (mid : Str)
    (m2 : Message) (hm2 : m2.id = mid) :
    ∀ msg, findMessageById store mid = some msg →
    findMessageById (store.map fun m => if m.id = mid then m2 else m) mid =
      some m2 := by
  induction store with
  | nil => intro msg hfind; simp [findMessageById] at hfind
  | cons x s ih =>
    intro msg hfind
    unfold findMessageById at hfind ⊢
    by_cases hx : x.id = mid
    · rw [List.map_cons, if_pos hx]
      exact List.find?_cons_of_pos _ (by simp [hm2])
    · rw [List.map_cons, if_neg hx]
      rw [List.find?_cons_of_neg _ (by simp [hx])]
      rw [List.find?_cons_of_neg _ (by simp [hx])] at hfind
      exact ih msg hfind

/-- C10: when the payload is valid, the requester is a member, and the
Message Store edit succeeds, but the re-mediation step throws, the gateway
emits only a targeted `editFailed` (no `messageEdited` broadcast) — yet the
message remains persisted with the new raw content, `isEdited = true`, and
cleared translations/confidence.  `editFailed` therefore does not imply the
stored message is unchanged. -/
theorem handleEditMessage_failure_after_persist (store : List Message)
    (members : List (Str × Str)) (uid g mid nc : Str) (now : Int) (e : Str)
    (msg : Message)
    (hg : (jsTrim g).isEmpty = false)
    (hmid : (jsTrim mid).isEmpty = false)
    (hne : (jsTrim nc).isEmpty = false)
    (hlen : ¬((jsTrim nc).length > 2000))
    (hfind : findMessageById store mid = some msg)
    (hdiff : ¬(msg.rawContent = jsTrim nc))
    (hmem : isMember members g uid = true)
    (hown : msg.senderId = uid)
    (htype : msg.contentType = MessageContentType.TEXT)
    (htime : ¬(msg.createdAt < now - editWindowMs)) :
    (handleEditMessage store members (some uid) (some g) (some mid) (some nc)
      now (.error e)).events =
      [GwEvent.editFailedToClient (some mid) e] ∧
    (∀ ev ∈ (handleEditMessage store members (some uid) (some g) (some mid)
      (some nc) now (Except.error e)).events, ev.isMessageEdited = false) ∧
    (∃ m2, findMessageById (handleEditMessage store members (some uid)
        (some g) (some mid) (some nc) now (Except.error e)).store mid =
        some m2 ∧
      m2.rawContent = jsTrim nc ∧ m2.isEdited = true ∧
      m2.translations = none ∧ m2.confidenceScore = none) := by
  have hmsgid : msg.id = mid := by
    have := List.find?_some hfind
    simpa using this
  have hedit : editMessage store mid uid (jsTrim nc) now =
      .ok (editedRow msg (jsTrim nc),
           store.map fun m =>
             if m.id = mid then editedRow msg (jsTrim nc) else m) := by
    simp [editMessage, editedRow, hfind, hown, htype, htime]
  have hrun : handleEditMessage store members (some uid) (some g) (some mid)
      (some nc) now (Except.error e) =
      ⟨store.map fun m =>
          if m.id = mid then editedRow msg (jsTrim nc) else m,
        [GwEvent.editFailedToClient (some mid) e], none⟩ := by
    simp [handleEditMessage, hg, hmid, hne, hlen, hfind, hdiff, hmem, hedit]
  rw [hrun]
  refine ⟨rfl, ?_, ?_⟩
  · intro ev hev
    simp only [List.mem_singleton] at hev
    subst hev
    rfl
  · refine ⟨editedRow msg (jsTrim nc), ?_, rfl, rfl, rfl, rfl⟩
    exact findMessageById_map_set store mid _ (by simpa [editedRow] using
      hmsgid) msg hfind

/-- C10 witness: concrete run in which the edit persists, the re-mediation
throws, only `editFailed` is emitted, and the stored row carries the new
content with cleared translations. -/
theorem handleEditMessage_failure_after_persist_witness :
    (handleEditMessage [c10Msg] [(['g'], ['u'])] (some ['u']) (some ['g'])
      (some ['m']) (some " new ".toList) 1000
      (Except.error "provider down".toList)).events =
      [GwEvent.editFailedToClient (some ['m']) "provider down".toList] ∧
    (∃ m2, findMessageById (handleEditMessage [c10Msg] [(['g'], ['u'])]
        (some ['u']) (some ['g']) (some ['m']) (some " new ".toList) 1000
        (Except.error "provider down".toList)).store ['m'] = some m2 ∧
      m2.rawContent = jsTrim " new ".toList ∧ m2.isEdited = true ∧
      m2.translations = none ∧ m2.confidenceScore = none) := by
  have h := handleEditMessage_failure_after_persist [c10Msg] [(['g'], ['u'])]
    ['u'] ['g'] ['m'] " new ".toList 1000 "provider down".toList c10Msg
    (by decide) (by decide) (by decide) (by decide) (by decide) (by decide)
    (by decide) (by decide) (by decide) (by decide)
  exact ⟨h.1, h.2.2⟩

end LinkLanka
